import Mathlib

/-!
Shallow embedding of the `fluxo-dev/kit` syntax kernel: the expression tree
(`src/ast/*.rs`), the De Bruijn indexing pass (`Exp::index` in
`src/ast/exp.rs`), the fallible binder constructors (`Abs::new`, `Prd::new`,
`Sum::new`), universe arithmetic (`src/ast/unv.rs`), the canonical printer
(`Core` codec in `src/enc/core/par.rs`), the lexer (`src/enc/core/lex.rs`),
and the parser (modelled from the spec, since the lalrpop grammar file is not
part of the available sources).

Machine integers (`u64`) are modelled as `Nat` with the overflow boundary
checked explicitly at `u64::MAX`; fallible Rust code returning
`Result<_, SystemErr>` is modelled with `Except SystemErr _`; the documented
panic of `Idx::dec` at value `0` is modelled as `Option.none`.
-/

namespace Kit

/-- Largest value representable by Rust's `u64` (`u64::MAX` = 2^64 - 1). -/
def U64_MAX : Nat := 18446744073709551615

/-- Name given to a variable (`Sym` in `src/ast/var.rs`). -/
structure Sym where
  val : String
deriving DecidableEq, Repr

/-- `Sym::new` from `src/ast/var.rs`. -/
def Sym.new (val : String) : Sym := ⟨val⟩

/-- De Bruijn index carrying its originating symbol (`Idx` in `src/ast/var.rs`).
The numeric value is a `u64` in the source, modelled as `Nat` with the
overflow boundary made explicit in `Idx.inc`. -/
structure Idx where
  val : Nat
  sym : Sym
deriving DecidableEq, Repr

/-- System errors from `src/err.rs`: a maximum-limit overflow for indices or
universe levels, carrying the offending numeric value. -/
inductive SystemErr where
  | maxLimitIdx (lim : Nat)
  | maxLimitUnv (lim : Nat)
deriving DecidableEq, Repr

/-- `Idx::new` from `src/ast/var.rs`: an index with value 0. -/
def Idx.new (sym : Sym) : Idx := ⟨0, sym⟩

/-- `Idx::inc` from `src/ast/var.rs`: `checked_add(1)` on the `u64` value,
which fails exactly when the value is `u64::MAX`. -/
def Idx.inc (i : Idx) : Except SystemErr Idx :=
  if i.val = U64_MAX then Except.error (SystemErr.maxLimitIdx i.val)
  else Except.ok ⟨i.val + 1, i.sym⟩

/-- `Idx::dec` from `src/ast/var.rs`: `self.val - 1` on a `u64`, which (per
the method's own documentation and the `test_dec_panic` test) panics when the
value is 0. The panic is modelled as `none`. -/
def Idx.dec (i : Idx) : Option Idx :=
  if i.val = 0 then none else some ⟨i.val - 1, i.sym⟩

/-- Stratified type universe (`Unv` in `src/ast/unv.rs`); the level is a
`u64` in the source. -/
structure Unv where
  level : Nat
deriving DecidableEq, Repr

/-- `Unv::new` from `src/ast/unv.rs`: a universe at level 0. -/
def Unv.new : Unv := ⟨0⟩

/-- `Unv::inc` from `src/ast/unv.rs`: `checked_add(1)` on the level, which
fails exactly when the level is `u64::MAX`. -/
def Unv.inc (u : Unv) : Except SystemErr Unv :=
  if u.level = U64_MAX then Except.error (SystemErr.maxLimitUnv u.level)
  else Except.ok ⟨u.level + 1⟩

/-- `Unv::max`: `Unv` derives `Ord` ordered by `level`, and Rust's
`Ord::max(a, b)` returns `b` when the comparison finds them equal, else the
greater one. -/
def Unv.max (a b : Unv) : Unv :=
  if a.level ≤ b.level then b else a

/-- Variable (`Var` in `src/ast/var.rs`): a still-free symbol or a bound
De Bruijn index. -/
inductive Var where
  | sym (s : Sym)
  | idx (i : Idx)
deriving DecidableEq, Repr

/-- Expression tree (`Exp` in `src/ast/exp.rs`). The `Abs`/`Prd`/`Sum`
struct fields (`sym`, `typ`, `exp` from `src/ast/abs.rs`, `prd.rs`,
`sum.rs`) and the `App` fields (`fst`, `snd` from `src/ast/app.rs`) are
inlined into the constructors. -/
inductive Exp where
  | var (v : Var)
  | app (fst snd : Exp)
  | abs (sym : Sym) (typ : Exp) (exp : Exp)
  | prd (sym : Sym) (typ : Exp) (exp : Exp)
  | sum (sym : Sym) (typ : Exp) (exp : Exp)
  | unv (u : Unv)
deriving DecidableEq, Repr

/-- `Exp::index` from `src/ast/exp.rs`, the De Bruijn indexing pass. The
in-place mutation of the Rust source (which owns the scanned tree uniquely)
is modelled as a pure transform returning the scanned tree; `?`-propagation
of errors is modelled by the explicit `match` on each fallible step. -/
def Exp.index : Exp → Sym → Idx → Except SystemErr Exp
  | Exp.var (Var.sym can), sym, idx =>
      if can = sym then Except.ok (Exp.var (Var.idx idx))
      else Except.ok (Exp.var (Var.sym can))
  | Exp.var (Var.idx i), _, _ => Except.ok (Exp.var (Var.idx i))
  | Exp.abs can typ exp, sym, idx =>
      if can ≠ sym then
        match idx.inc with
        | Except.error e => Except.error e
        | Except.ok idx2 =>
            match exp.index sym idx2 with
            | Except.error e => Except.error e
            | Except.ok exp2 => Except.ok (Exp.abs can typ exp2)
      else Except.ok (Exp.abs can typ exp)
  | Exp.app fst snd, sym, idx =>
      match fst.index sym idx with
      | Except.error e => Except.error e
      | Except.ok fst2 =>
          match snd.index sym idx with
          | Except.error e => Except.error e
          | Except.ok snd2 => Except.ok (Exp.app fst2 snd2)
  | Exp.prd can typ exp, sym, idx =>
      if can ≠ sym then
        match idx.inc with
        | Except.error e => Except.error e
        | Except.ok idx2 =>
            match exp.index sym idx2 with
            | Except.error e => Except.error e
            | Except.ok exp2 => Except.ok (Exp.prd can typ exp2)
      else Except.ok (Exp.prd can typ exp)
  | Exp.sum can typ exp, sym, idx =>
      if can ≠ sym then
        match idx.inc with
        | Except.error e => Except.error e
        | Except.ok idx2 =>
            match exp.index sym idx2 with
            | Except.error e => Except.error e
            | Except.ok exp2 => Except.ok (Exp.sum can typ exp2)
      else Except.ok (Exp.sum can typ exp)
  | Exp.unv u, _, _ => Except.ok (Exp.unv u)

/-- `Abs::new` from `src/ast/abs.rs`: index the body against the bound
symbol starting at index 0, then build the node. -/
def Abs.new (sym : Sym) (typ : Exp) (exp : Exp) : Except SystemErr Exp :=
  match exp.index sym (Idx.new sym) with
  | Except.error e => Except.error e
  | Except.ok exp2 => Except.ok (Exp.abs sym typ exp2)

/-- `Prd::new` from `src/ast/prd.rs`. -/
def Prd.new (sym : Sym) (typ : Exp) (exp : Exp) : Except SystemErr Exp :=
  match exp.index sym (Idx.new sym) with
  | Except.error e => Except.error e
  | Except.ok exp2 => Except.ok (Exp.prd sym typ exp2)

/-- `Sum::new` from `src/ast/sum.rs`. -/
def Sum.new (sym : Sym) (typ : Exp) (exp : Exp) : Except SystemErr Exp :=
  match exp.index sym (Idx.new sym) with
  | Except.error e => Except.error e
  | Except.ok exp2 => Except.ok (Exp.sum sym typ exp2)

/-- `App::new` from `src/ast/app.rs` (infallible). -/
def App.new (fst snd : Exp) : Exp := Exp.app fst snd

/-- The `Core` codec state from `src/enc/core/par.rs`: the two
parenthesization flags and the display mode. -/
structure Core where
  ltree : Bool
  rtree : Bool
  show_indices : Bool
deriving DecidableEq, Repr

/-- `Core::new` from `src/enc/core/par.rs`. -/
def Core.new : Core := ⟨false, false, false⟩

/-- `Core::reset` from `src/enc/core/par.rs`: clear both tree flags, keep
`show_indices`. -/
def Core.reset (c : Core) : Core := ⟨false, false, c.show_indices⟩

/-- `Core::with_show_indices` from `src/enc/core/par.rs`. -/
def Core.with_show_indices (b : Bool) : Core := ⟨false, false, b⟩

/-- `Codec::encode` for `Core` from `src/enc/core/par.rs`, with `fmt_binder`,
`fmt_app` and `fmt_parens` inlined. In `fmt_app` the left child codec is
`Self { ltree: !self.rtree, ..*self }` and the right child codec is
`Self { rtree: !self.rtree, ..*self }` (each keeps the other flag of the
parent); an application is parenthesized when `self.rtree` holds and a
binder when `self.ltree` holds. -/
def Core.encode (c : Core) : Exp → String
  | Exp.var (Var.sym s) => s.val
  | Exp.var (Var.idx i) => if c.show_indices then toString i.val else i.sym.val
  | Exp.app fst snd =>
      let lc : Core := ⟨!c.rtree, c.rtree, c.show_indices⟩
      let rc : Core := ⟨c.ltree, !c.rtree, c.show_indices⟩
      let inner := lc.encode fst ++ " " ++ rc.encode snd
      if c.rtree then "(" ++ inner ++ ")" else inner
  | Exp.abs sym typ exp =>
      let inner :=
        "λ" ++ sym.val ++ " : " ++ c.reset.encode typ ++ " . " ++ c.reset.encode exp
      if c.ltree then "(" ++ inner ++ ")" else inner
  | Exp.prd sym typ exp =>
      let inner :=
        "Π" ++ sym.val ++ " : " ++ c.reset.encode typ ++ " . " ++ c.reset.encode exp
      if c.ltree then "(" ++ inner ++ ")" else inner
  | Exp.sum sym typ exp =>
      let inner :=
        "Σ" ++ sym.val ++ " : " ++ c.reset.encode typ ++ " . " ++ c.reset.encode exp
      if c.ltree then "(" ++ inner ++ ")" else inner
  | Exp.unv _ => "□"

/-- Token alphabet of the core language (`Tok` in `src/enc/core/lex.rs`). -/
inductive Tok where
  | ident (s : String)
  | lparen
  | rparen
  | dot
  | colon
  | lambda
  | pi
  | sigma
  | box
deriving DecidableEq, Repr

/-- Whitespace skipped by the lexer (`[ \t\n\f]` in `src/enc/core/lex.rs`). -/
def isSkipChar (ch : Char) : Bool :=
  ch = ' ' || ch = '\t' || ch = '\n' || ch = '\x0c'

/-- First character of an identifier (`[a-z]` in `src/enc/core/lex.rs`). -/
def isIdentFst (ch : Char) : Bool := 'a' ≤ ch && ch ≤ 'z'

/-- Continuation character of an identifier (`[a-z0-9_]` in
`src/enc/core/lex.rs`). -/
def isIdentNxt (ch : Char) : Bool :=
  ('a' ≤ ch && ch ≤ 'z') || ('0' ≤ ch && ch ≤ '9') || ch = '_'

/-- Fueled lexer loop for the lexer of `src/enc/core/lex.rs`: skip
whitespace, read identifiers by maximal munch, classify the eight fixed
glyphs, fail on anything else. Each step consumes at least one character, so
fuel `length + 1` never runs out; source offsets and the distinction between
the lexer error payloads are dropped (no verified claim inspects them), a
lexical failure is `none`. -/
def lexF : Nat → List Char → Option (List Tok)
  | 0, _ => none
  | _ + 1, [] => some []
  | f + 1, ch :: rest =>
      if isSkipChar ch then lexF f rest
      else if isIdentFst ch then
        (lexF f (rest.dropWhile isIdentNxt)).map
          (fun ts => Tok.ident (String.mk (ch :: rest.takeWhile isIdentNxt)) :: ts)
      else if ch = '(' then (lexF f rest).map (fun ts => Tok.lparen :: ts)
      else if ch = ')' then (lexF f rest).map (fun ts => Tok.rparen :: ts)
      else if ch = '.' then (lexF f rest).map (fun ts => Tok.dot :: ts)
      else if ch = ':' then (lexF f rest).map (fun ts => Tok.colon :: ts)
      else if ch = 'λ' then (lexF f rest).map (fun ts => Tok.lambda :: ts)
      else if ch = 'Π' then (lexF f rest).map (fun ts => Tok.pi :: ts)
      else if ch = 'Σ' then (lexF f rest).map (fun ts => Tok.sigma :: ts)
      else if ch = '□' then (lexF f rest).map (fun ts => Tok.box :: ts)
      else none

/-- Lexer entry point (`Lexer::new` plus iteration, `src/enc/core/lex.rs`). -/
def lex (s : String) : Option (List Tok) := lexF (s.length + 1) s.data

/-- Task selector for the recursive-descent parser: a full expression, a
single atom, or the continuation of a left-associative application chain
with the accumulated left spine. -/
inductive PTask where
  | pExp
  | pAtom
  | pAtoms (acc : Exp)

/-- Modelled from the spec: the lalrpop grammar file compiled by `build.rs`
(`/enc/core/grammar.rs`) is not among the available sources, so this parser
follows spec §4.4 —
`Exp := Binder | Application`, `Binder := ('λ'|'Π'|'Σ') Ident ':' Exp '.' Exp`,
`Application := Atom+` (left-associative), `Atom := Ident | '□' | '(' Exp ')'`,
with a binder body extending maximally to the right ("binder bodies consume
the rest of the enclosing expression unless parenthesized", so a trailing
binder may close an application chain), `□` decoding at universe level 0
(§9), and binder productions invoking the fallible constructors
`Abs::new`/`Prd::new`/`Sum::new` (§4.4), whose system errors are collapsed
into parse failure `none`. Fuel decreases on every recursive call. -/
def parseF : Nat → PTask → List Tok → Option (Exp × List Tok)
  | 0, _, _ => none
  | f + 1, PTask.pAtom, ts =>
      match ts with
      | Tok.ident n :: rest => some (Exp.var (Var.sym (Sym.new n)), rest)
      | Tok.box :: rest => some (Exp.unv Unv.new, rest)
      | Tok.lparen :: rest =>
          match parseF f PTask.pExp rest with
          | none => none
          | some (e, rest2) =>
              match rest2 with
              | Tok.rparen :: rest3 => some (e, rest3)
              | _ => none
      | _ => none
  | f + 1, PTask.pExp, ts =>
      match ts with
      | Tok.lambda :: Tok.ident n :: Tok.colon :: rest =>
          match parseF f PTask.pExp rest with
          | none => none
          | some (typ, rest2) =>
              match rest2 with
              | Tok.dot :: rest3 =>
                  match parseF f PTask.pExp rest3 with
                  | none => none
                  | some (body, rest4) =>
                      match Abs.new (Sym.new n) typ body with
                      | Except.ok e => some (e, rest4)
                      | Except.error _ => none
              | _ => none
      | Tok.pi :: Tok.ident n :: Tok.colon :: rest =>
          match parseF f PTask.pExp rest with
          | none => none
          | some (typ, rest2) =>
              match rest2 with
              | Tok.dot :: rest3 =>
                  match parseF f PTask.pExp rest3 with
                  | none => none
                  | some (body, rest4) =>
                      match Prd.new (Sym.new n) typ body with
                      | Except.ok e => some (e, rest4)
                      | Except.error _ => none
              | _ => none
      | Tok.sigma :: Tok.ident n :: Tok.colon :: rest =>
          match parseF f PTask.pExp rest with
          | none => none
          | some (typ, rest2) =>
              match rest2 with
              | Tok.dot :: rest3 =>
                  match parseF f PTask.pExp rest3 with
                  | none => none
                  | some (body, rest4) =>
                      match Sum.new (Sym.new n) typ body with
                      | Except.ok e => some (e, rest4)
                      | Except.error _ => none
              | _ => none
      | _ =>
          match parseF f PTask.pAtom ts with
          | none => none
          | some (a, rest) => parseF f (PTask.pAtoms a) rest
  | f + 1, PTask.pAtoms acc, ts =>
      match ts with
      | Tok.lambda :: _ =>
          match parseF f PTask.pExp ts with
          | none => none
          | some (b, rest) => some (App.new acc b, rest)
      | Tok.pi :: _ =>
          match parseF f PTask.pExp ts with
          | none => none
          | some (b, rest) => some (App.new acc b, rest)
      | Tok.sigma :: _ =>
          match parseF f PTask.pExp ts with
          | none => none
          | some (b, rest) => some (App.new acc b, rest)
      | Tok.ident _ :: _ =>
          match parseF f PTask.pAtom ts with
          | none => none
          | some (a, rest) => parseF f (PTask.pAtoms (App.new acc a)) rest
      | Tok.box :: _ =>
          match parseF f PTask.pAtom ts with
          | none => none
          | some (a, rest) => parseF f (PTask.pAtoms (App.new acc a)) rest
      | Tok.lparen :: _ =>
          match parseF f PTask.pAtom ts with
          | none => none
          | some (a, rest) => parseF f (PTask.pAtoms (App.new acc a)) rest
      | _ => some (acc, ts)

/-- `Codec::decode` for `Core` from `src/enc/core/par.rs`: lex, parse a
single expression, require the whole token stream consumed (lalrpop's
generated parser accepts only complete derivations). Errors collapse to
`none`. The fuel bound is generous: the parser consumes a token between any
two fuel-decreasing steps except for at most three chained dispatch steps. -/
def Core.decode (_c : Core) (s : String) : Option Exp :=
  match lex s with
  | none => none
  | some ts =>
      match parseF (4 * ts.length + 4) PTask.pExp ts with
      | some (e, []) => some e
      | _ => none

/-- Collects, in traversal order, the `typ` field of every binder node of
the tree (each collected entry is the whole type subtree, so equality of
these lists means every type annotation is untouched in its entirety). -/
def binderTyps : Exp → List Exp
  | Exp.var _ => []
  | Exp.unv _ => []
  | Exp.app fst snd => binderTyps fst ++ binderTyps snd
  | Exp.abs _ typ exp => typ :: binderTyps exp
  | Exp.prd _ typ exp => typ :: binderTyps exp
  | Exp.sum _ typ exp => typ :: binderTyps exp

/-- Free variable `a` (concrete test data). -/
def cVarA : Exp := Exp.var (Var.sym (Sym.new "a"))

/-- Free variable `x` (concrete test data). -/
def cVarX : Exp := Exp.var (Var.sym (Sym.new "x"))

/-- The binder `λs : t . b` as produced by
`Abs::new("s", Var(Sym "t"), Var(Sym "b"))`: the body has no occurrence of
`s`, so indexing leaves it unchanged. -/
def c1Abs : Exp :=
  Exp.abs (Sym.new "s") (Exp.var (Var.sym (Sym.new "t")))
    (Exp.var (Var.sym (Sym.new "b")))

/-- The constructor-built tree `App(a, App(λs : t . b, x))` used to exhibit
the round-trip failure of claim C1. -/
def c1Exp : Exp := App.new cVarA (App.new c1Abs cVarX)

/-- What `decode` yields on `encode c1Exp`: the unparenthesized binder
swallows the trailing `x`, giving `App(a, λs : t . (b x))`. -/
def c1Dec : Exp :=
  Exp.app cVarA
    (Exp.abs (Sym.new "s") (Exp.var (Var.sym (Sym.new "t")))
      (Exp.app (Exp.var (Var.sym (Sym.new "b"))) cVarX))

/-- Expected tree for claim C3:
`Abs{sym: "foo", typ: Var(Sym "int"), exp: App(Var(Idx{0,"foo"}), App(Var(Sym "bar"), Var(Sym "moo")))}`. -/
def c3Exp : Exp :=
  Exp.abs (Sym.new "foo") (Exp.var (Var.sym (Sym.new "int")))
    (Exp.app (Exp.var (Var.idx ⟨0, Sym.new "foo"⟩))
      (Exp.app (Exp.var (Var.sym (Sym.new "bar")))
        (Exp.var (Var.sym (Sym.new "moo")))))

/-- Expected tree for claim C6:
`App(Var(Sym "foo"), Abs{sym: "bar", typ: Var(Sym "int"), exp: App(Var(Idx{0,"bar"}), Var(Sym "moo"))})`. -/
def c6Exp : Exp :=
  Exp.app (Exp.var (Var.sym (Sym.new "foo")))
    (Exp.abs (Sym.new "bar") (Exp.var (Var.sym (Sym.new "int")))
      (Exp.app (Exp.var (Var.idx ⟨0, Sym.new "bar"⟩))
        (Exp.var (Var.sym (Sym.new "moo")))))

/-- Left-associative reading of `foo bar moo` (claim C7). -/
def c7Left : Exp :=
  Exp.app
    (Exp.app (Exp.var (Var.sym (Sym.new "foo"))) (Exp.var (Var.sym (Sym.new "bar"))))
    (Exp.var (Var.sym (Sym.new "moo")))

/-- Right-associative reading of `foo bar moo` (ruled out by claim C7). -/
def c7Right : Exp :=
  Exp.app (Exp.var (Var.sym (Sym.new "foo")))
    (Exp.app (Exp.var (Var.sym (Sym.new "bar"))) (Exp.var (Var.sym (Sym.new "moo"))))

/-- Inner binder of the shadowing scenario of claim C2, as produced by
`Abs::new("x", Var(Sym "u"), Var(Sym "x"))`: its own construction binds its
body occurrence of `x` at index 0. -/
def c2Inner : Exp :=
  Exp.abs (Sym.new "x") (Exp.var (Var.sym (Sym.new "u")))
    (Exp.var (Var.idx ⟨0, Sym.new "x"⟩))

/-- Body `(λx:u. x) x` of the shadowing scenario of claim C2, before the
outer binder is constructed. -/
def c2Body : Exp := App.new c2Inner (Exp.var (Var.sym (Sym.new "x")))

/-- The shadowing scenario's body after the outer binder's indexing pass:
the inner binder is left untouched (its occurrence of `x` stays at index 0,
bound to the inner binder) and the argument occurrence of `x` is bound at
index 0 to the outer binder. -/
def c2BodyIndexed : Exp :=
  Exp.app c2Inner (Exp.var (Var.idx ⟨0, Sym.new "x"⟩))

/-- Helper for claim C9: the indexing pass leaves the `typ` field of every
binder node of the scanned tree unchanged. -/
theorem index_binderTyps_aux (tgt : Sym) :
    ∀ (e : Exp) (i : Idx) (e2 : Exp),
      Exp.index e tgt i = Except.ok e2 → binderTyps e2 = binderTyps e := by
  intro e
  induction e with
  | var v =>
    intro i e2 h
    cases v with
    | sym s =>
      by_cases hs : s = tgt
      · simp [Exp.index, hs] at h
        simp [← h, binderTyps]
      · simp [Exp.index, hs] at h
        simp [← h, binderTyps]
    | idx j =>
      simp [Exp.index] at h
      simp [← h, binderTyps]
  | app fst snd ih1 ih2 =>
    intro i e2 h
    cases h1 : Exp.index fst tgt i with
    | error err => simp [Exp.index, h1] at h
    | ok f2 =>
      cases h2 : Exp.index snd tgt i with
      | error err => simp [Exp.index, h1, h2] at h
      | ok s2 =>
        simp [Exp.index, h1, h2] at h
        simp [← h, binderTyps, ih1 i f2 h1, ih2 i s2 h2]
  | abs can typ exp ih1 ih2 =>
    intro i e2 h
    by_cases hc : can = tgt
    · simp [Exp.index, hc] at h
      simp [← h, hc]
    · cases hinc : Idx.inc i with
      | error err => simp [Exp.index, hc, hinc] at h
      | ok i2 =>
        cases hexp : Exp.index exp tgt i2 with
        | error err => simp [Exp.index, hc, hinc, hexp] at h
        | ok exp2 =>
          simp [Exp.index, hc, hinc, hexp] at h
          simp [← h, binderTyps, ih2 i2 exp2 hexp]
  | prd can typ exp ih1 ih2 =>
    intro i e2 h
    by_cases hc : can = tgt
    · simp [Exp.index, hc] at h
      simp [← h, hc]
    · cases hinc : Idx.inc i with
      | error err => simp [Exp.index, hc, hinc] at h
      | ok i2 =>
        cases hexp : Exp.index exp tgt i2 with
        | error err => simp [Exp.index, hc, hinc, hexp] at h
        | ok exp2 =>
          simp [Exp.index, hc, hinc, hexp] at h
          simp [← h, binderTyps, ih2 i2 exp2 hexp]
  | sum can typ exp ih1 ih2 =>
    intro i e2 h
    by_cases hc : can = tgt
    · simp [Exp.index, hc] at h
      simp [← h, hc]
    · cases hinc : Idx.inc i with
      | error err => simp [Exp.index, hc, hinc] at h
      | ok i2 =>
        cases hexp : Exp.index exp tgt i2 with
        | error err => simp [Exp.index, hc, hinc, hexp] at h
        | ok exp2 =>
          simp [Exp.index, hc, hinc, hexp] at h
          simp [← h, binderTyps, ih2 i2 exp2 hexp]
  | unv u =>
    intro i e2 h
    simp [Exp.index] at h
    simp [← h]

/-- Claim C1 (bug evidence): the tree `App(a, App(λs : t . b, x))`, built
only through the public constructors with no overflow, is printed by the
canonical encoder as `"a (λs : t . b x)"` — `fmt_app` copies the parent's
`rtree` flag into the left-child codec when parenthesizing, so the binder
sitting in left-application position inside the parentheses has
`ltree = false` and loses its own parentheses; under the greedy-binder-body
grammar that string decodes to `App(a, λs : t . (b x))`, a different tree,
so `decode (encode e) = e` fails. -/
theorem c1_roundtrip_failure :
    Abs.new (Sym.new "s") (Exp.var (Var.sym (Sym.new "t")))
        (Exp.var (Var.sym (Sym.new "b"))) = Except.ok c1Abs ∧
    c1Exp = App.new cVarA (App.new c1Abs cVarX) ∧
    Core.new.encode c1Exp = "a (λs : t . b x)" ∧
    Core.new.decode "a (λs : t . b x)" = some c1Dec ∧
    c1Dec ≠ c1Exp :=
  ⟨rfl, rfl, rfl, by decide, by decide⟩

/-- Claim C2: `Exp::index` converts exactly the unshadowed free occurrences
of the target symbol into the current index: a matching `Var::Sym` becomes
`Var::Idx` carrying the current index, non-matching symbols and
already-bound indices and universe constants are unchanged, both branches
of an application are scanned with the same index, a binder whose symbol
equals the target stops the descent (shadowing) while any other binder is
descended into with the index incremented; and in the body `(λx:u. x) x` of
`λx:t.(λx:u. x) x` the inner occurrence of `x` stays at index 0 bound to
the inner binder while the argument occurrence is bound to the outer binder
at index 0. -/
theorem c2_index_spec (tgt : Sym) (i : Idx) :
    (∀ s : Sym, Exp.index (Exp.var (Var.sym s)) tgt i =
      if s = tgt then Except.ok (Exp.var (Var.idx i))
      else Except.ok (Exp.var (Var.sym s))) ∧
    (∀ j : Idx, Exp.index (Exp.var (Var.idx j)) tgt i = Except.ok (Exp.var (Var.idx j))) ∧
    (∀ u : Unv, Exp.index (Exp.unv u) tgt i = Except.ok (Exp.unv u)) ∧
    (∀ fst snd : Exp, Exp.index (Exp.app fst snd) tgt i =
      (Exp.index fst tgt i).bind fun fst2 =>
        (Exp.index snd tgt i).bind fun snd2 => Except.ok (Exp.app fst2 snd2)) ∧
    (∀ (can : Sym) (typ exp : Exp), Exp.index (Exp.abs can typ exp) tgt i =
      if can = tgt then Except.ok (Exp.abs can typ exp)
      else i.inc.bind fun i2 =>
        (Exp.index exp tgt i2).bind fun exp2 => Except.ok (Exp.abs can typ exp2)) ∧
    (∀ (can : Sym) (typ exp : Exp), Exp.index (Exp.prd can typ exp) tgt i =
      if can = tgt then Except.ok (Exp.prd can typ exp)
      else i.inc.bind fun i2 =>
        (Exp.index exp tgt i2).bind fun exp2 => Except.ok (Exp.prd can typ exp2)) ∧
    (∀ (can : Sym) (typ exp : Exp), Exp.index (Exp.sum can typ exp) tgt i =
      if can = tgt then Except.ok (Exp.sum can typ exp)
      else i.inc.bind fun i2 =>
        (Exp.index exp tgt i2).bind fun exp2 => Except.ok (Exp.sum can typ exp2)) ∧
    (Abs.new (Sym.new "x") (Exp.var (Var.sym (Sym.new "u")))
        (Exp.var (Var.sym (Sym.new "x"))) = Except.ok c2Inner ∧
      Exp.index c2Body (Sym.new "x") (Idx.new (Sym.new "x")) = Except.ok c2BodyIndexed ∧
      Abs.new (Sym.new "x") (Exp.var (Var.sym (Sym.new "t"))) c2Body =
        Except.ok (Exp.abs (Sym.new "x") (Exp.var (Var.sym (Sym.new "t"))) c2BodyIndexed)) := by
  refine ⟨?_, fun j => rfl, fun u => rfl, ?_, ?_, ?_, ?_, rfl, rfl, rfl⟩
  · intro s
    by_cases hs : s = tgt <;> simp [Exp.index, hs]
  · intro fst snd
    cases h1 : Exp.index fst tgt i with
    | error err => simp [Exp.index, h1, Except.bind]
    | ok f2 =>
      cases h2 : Exp.index snd tgt i with
      | error err => simp [Exp.index, h1, h2, Except.bind]
      | ok s2 => simp [Exp.index, h1, h2, Except.bind]
  · intro can typ exp
    by_cases hc : can = tgt
    · simp [Exp.index, hc]
    · cases hinc : Idx.inc i with
      | error err => simp [Exp.index, hc, hinc, Except.bind]
      | ok i2 =>
        cases hexp : Exp.index exp tgt i2 with
        | error err => simp [Exp.index, hc, hinc, hexp, Except.bind]
        | ok exp2 => simp [Exp.index, hc, hinc, hexp, Except.bind]
  · intro can typ exp
    by_cases hc : can = tgt
    · simp [Exp.index, hc]
    · cases hinc : Idx.inc i with
      | error err => simp [Exp.index, hc, hinc, Except.bind]
      | ok i2 =>
        cases hexp : Exp.index exp tgt i2 with
        | error err => simp [Exp.index, hc, hinc, hexp, Except.bind]
        | ok exp2 => simp [Exp.index, hc, hinc, hexp, Except.bind]
  · intro can typ exp
    by_cases hc : can = tgt
    · simp [Exp.index, hc]
    · cases hinc : Idx.inc i with
      | error err => simp [Exp.index, hc, hinc, Except.bind]
      | ok i2 =>
        cases hexp : Exp.index exp tgt i2 with
        | error err => simp [Exp.index, hc, hinc, hexp, Except.bind]
        | ok exp2 => simp [Exp.index, hc, hinc, hexp, Except.bind]

/-- Claim C3: decoding the exact string `"λfoo : int . foo (bar moo)"`
succeeds with the expected tree (the body occurrence of `foo` bound at
index 0), and encoding that tree reproduces the exact input string. -/
theorem c3_literal_scenario :
    Core.new.decode "λfoo : int . foo (bar moo)" = some c3Exp ∧
    Core.new.encode c3Exp = "λfoo : int . foo (bar moo)" :=
  ⟨by decide, rfl⟩

/-- Claim C4: binder construction is atomic on failure — each of the three
binder constructors is exactly the indexing pass on the body followed, only
on success, by assembling the node; an indexing error is propagated
unchanged and no binder value is produced, so a failed `Exp::index` call
has no effect observable through the constructor's result. -/
theorem c4_binder_new_atomic (sym : Sym) (typ exp : Exp) :
    Abs.new sym typ exp =
      Except.map (fun exp2 => Exp.abs sym typ exp2) (Exp.index exp sym (Idx.new sym)) ∧
    Prd.new sym typ exp =
      Except.map (fun exp2 => Exp.prd sym typ exp2) (Exp.index exp sym (Idx.new sym)) ∧
    Sum.new sym typ exp =
      Except.map (fun exp2 => Exp.sum sym typ exp2) (Exp.index exp sym (Idx.new sym)) := by
  refine ⟨?_, ?_, ?_⟩ <;>
    cases h : Exp.index exp sym (Idx.new sym) <;>
      simp [Abs.new, Prd.new, Sum.new, Except.map, h]

/-- Claim C5: `Idx::inc` and `Unv::inc` fail exactly at the representable
maximum — strictly below `u64::MAX` they succeed with value + 1 (same
symbol for an index), and at exactly `u64::MAX` they fail with
`MaxLimitIdx` resp. `MaxLimitUnv` carrying the offending value, never
wrapping around. -/
theorem c5_inc_overflow_boundary :
    (∀ i : Idx, i.val < U64_MAX → Idx.inc i = Except.ok ⟨i.val + 1, i.sym⟩) ∧
    (∀ i : Idx, i.val = U64_MAX →
      Idx.inc i = Except.error (SystemErr.maxLimitIdx i.val)) ∧
    (∀ u : Unv, u.level < U64_MAX → Unv.inc u = Except.ok ⟨u.level + 1⟩) ∧
    (∀ u : Unv, u.level = U64_MAX →
      Unv.inc u = Except.error (SystemErr.maxLimitUnv u.level)) := by
  refine ⟨?_, ?_, ?_, ?_⟩
  · intro i h
    simp [Idx.inc, Nat.ne_of_lt h]
  · intro i h
    simp [Idx.inc, h]
  · intro u h
    simp [Unv.inc, Nat.ne_of_lt h]
  · intro u h
    simp [Unv.inc, h]

/-- Witness for claim C5 at concrete inputs on both sides of the boundary. -/
theorem c5_inc_overflow_boundary_witness :
    Idx.inc ⟨5, Sym.new "k"⟩ = Except.ok ⟨6, Sym.new "k"⟩ ∧
    Idx.inc ⟨U64_MAX, Sym.new "k"⟩ = Except.error (SystemErr.maxLimitIdx U64_MAX) ∧
    Unv.inc ⟨7⟩ = Except.ok ⟨8⟩ ∧
    Unv.inc ⟨U64_MAX⟩ = Except.error (SystemErr.maxLimitUnv U64_MAX) :=
  ⟨c5_inc_overflow_boundary.1 ⟨5, Sym.new "k"⟩ (by decide),
   c5_inc_overflow_boundary.2.1 ⟨U64_MAX, Sym.new "k"⟩ rfl,
   c5_inc_overflow_boundary.2.2.1 ⟨7⟩ (by decide),
   c5_inc_overflow_boundary.2.2.2 ⟨U64_MAX⟩ rfl⟩

/-- Claim C6: a binder's body extends maximally to the right — decoding
`"foo λbar:int.bar moo"` succeeds with the trailing `moo` inside the binder
body, applied to the bound occurrence of `bar`. -/
theorem c6_greedy_binder_body :
    Core.new.decode "foo λbar:int.bar moo" = some c6Exp := by
  decide

/-- Claim C7: application parses left-associatively — `"foo bar moo"`
decodes to `App(App(foo, bar), moo)` and not to `App(foo, App(bar, moo))`. -/
theorem c7_left_assoc :
    Core.new.decode "foo bar moo" = some c7Left ∧
    Core.new.decode "foo bar moo" ≠ some c7Right :=
  ⟨by decide, by decide⟩

/-- Claim C8: `Unv::new` is the universe at level 0, and `Unv::max` returns
the universe with the higher level; at equal levels the two universes are
equal and the result is both of them. -/
theorem c8_unv_new_and_max :
    Unv.new.level = 0 ∧
    (∀ a b : Unv, a.level < b.level → Unv.max a b = b) ∧
    (∀ a b : Unv, b.level < a.level → Unv.max a b = a) ∧
    (∀ a b : Unv, a.level = b.level → a = b ∧ Unv.max a b = a ∧ Unv.max a b = b) := by
  refine ⟨rfl, ?_, ?_, ?_⟩
  · intro a b h
    simp [Unv.max, Nat.le_of_lt h]
  · intro a b h
    simp [Unv.max, Nat.not_le.mpr h]
  · intro a b h
    cases a with
    | mk la =>
      cases b with
      | mk lb =>
        simp only at h
        subst h
        simp [Unv.max]

/-- Witness for claim C8 at concrete universes on both sides and at a tie. -/
theorem c8_unv_new_and_max_witness :
    Unv.max ⟨3⟩ ⟨5⟩ = ⟨5⟩ ∧ Unv.max ⟨5⟩ ⟨3⟩ = ⟨5⟩ ∧
    ((⟨4⟩ : Unv) = ⟨4⟩ ∧ Unv.max ⟨4⟩ ⟨4⟩ = ⟨4⟩ ∧ Unv.max ⟨4⟩ ⟨4⟩ = ⟨4⟩) :=
  ⟨c8_unv_new_and_max.2.1 ⟨3⟩ ⟨5⟩ (by decide),
   c8_unv_new_and_max.2.2.1 ⟨5⟩ ⟨3⟩ (by decide),
   c8_unv_new_and_max.2.2.2 ⟨4⟩ ⟨4⟩ rfl⟩

/-- Claim C9: indexing never touches type annotations — the list of all
binder type annotations (each taken as a whole subtree) is preserved by
`Exp::index`, and each binder constructor returns a node whose `typ` field
is exactly the supplied type and whose body has all its binder type
annotations preserved, so a free occurrence of the target symbol inside any
type annotation remains a free `Var::Sym`. -/
theorem c9_index_preserves_typs :
    (∀ (e : Exp) (tgt : Sym) (i : Idx) (e2 : Exp),
      Exp.index e tgt i = Except.ok e2 → binderTyps e2 = binderTyps e) ∧
    (∀ (sym : Sym) (typ exp a : Exp), Abs.new sym typ exp = Except.ok a →
      ∃ exp2, a = Exp.abs sym typ exp2 ∧ binderTyps exp2 = binderTyps exp) ∧
    (∀ (sym : Sym) (typ exp a : Exp), Prd.new sym typ exp = Except.ok a →
      ∃ exp2, a = Exp.prd sym typ exp2 ∧ binderTyps exp2 = binderTyps exp) ∧
    (∀ (sym : Sym) (typ exp a : Exp), Sum.new sym typ exp = Except.ok a →
      ∃ exp2, a = Exp.sum sym typ exp2 ∧ binderTyps exp2 = binderTyps exp) := by
  refine ⟨fun e tgt i e2 h => index_binderTyps_aux tgt e i e2 h, ?_, ?_, ?_⟩
  · intro sym typ exp a h
    cases hexp : Exp.index exp sym (Idx.new sym) with
    | error err => simp [Abs.new, hexp] at h
    | ok exp2 =>
      simp [Abs.new, hexp] at h
      exact ⟨exp2, h.symm, index_binderTyps_aux sym exp (Idx.new sym) exp2 hexp⟩
  · intro sym typ exp a h
    cases hexp : Exp.index exp sym (Idx.new sym) with
    | error err => simp [Prd.new, hexp] at h
    | ok exp2 =>
      simp [Prd.new, hexp] at h
      exact ⟨exp2, h.symm, index_binderTyps_aux sym exp (Idx.new sym) exp2 hexp⟩
  · intro sym typ exp a h
    cases hexp : Exp.index exp sym (Idx.new sym) with
    | error err => simp [Sum.new, hexp] at h
    | ok exp2 =>
      simp [Sum.new, hexp] at h
      exact ⟨exp2, h.symm, index_binderTyps_aux sym exp (Idx.new sym) exp2 hexp⟩

/-- Witness for claim C9: indexing `x` through the binder `λy : x . x`
rebinds the body occurrence but leaves the type annotation's occurrence of
`x` a free symbol. -/
theorem c9_index_preserves_typs_witness :
    Exp.index
        (Exp.abs (Sym.new "y") (Exp.var (Var.sym (Sym.new "x")))
          (Exp.var (Var.sym (Sym.new "x"))))
        (Sym.new "x") (Idx.new (Sym.new "x")) =
      Except.ok (Exp.abs (Sym.new "y") (Exp.var (Var.sym (Sym.new "x")))
        (Exp.var (Var.idx ⟨1, Sym.new "x"⟩))) ∧
    binderTyps
        (Exp.abs (Sym.new "y") (Exp.var (Var.sym (Sym.new "x")))
          (Exp.var (Var.idx ⟨1, Sym.new "x"⟩))) =
      binderTyps
        (Exp.abs (Sym.new "y") (Exp.var (Var.sym (Sym.new "x")))
          (Exp.var (Var.sym (Sym.new "x")))) :=
  ⟨rfl,
   c9_index_preserves_typs.1 _ (Sym.new "x") (Idx.new (Sym.new "x")) _ rfl⟩

/-- Claim C10: `Idx::dec` is partial at zero — for a positive value it
returns the decremented index with the same symbol, and at value 0 the
`u64` subtraction underflows and the call panics (modelled as `none`). -/
theorem c10_idx_dec_at_zero :
    (∀ i : Idx, 0 < i.val → Idx.dec i = some ⟨i.val - 1, i.sym⟩) ∧
    (∀ i : Idx, i.val = 0 → Idx.dec i = none) := by
  constructor
  · intro i h
    simp [Idx.dec, Nat.pos_iff_ne_zero.mp h]
  · intro i h
    simp [Idx.dec, h]

/-- Witness for claim C10 at concrete indices. -/
theorem c10_idx_dec_at_zero_witness :
    Idx.dec ⟨3, Sym.new "k"⟩ = some ⟨2, Sym.new "k"⟩ ∧
    Idx.dec ⟨0, Sym.new "k"⟩ = none :=
  ⟨c10_idx_dec_at_zero.1 ⟨3, Sym.new "k"⟩ (by decide),
   c10_idx_dec_at_zero.2 ⟨0, Sym.new "k"⟩ rfl⟩

end Kit
